import Mathlib

/-!
getgpx: extraction of rally bonus coordinates into a GPX file

A shallow embedding of `getgpx.go` and the properties of its output.

Modelling conventions.

* A Go `string` is an immutable sequence of bytes: `GoString := List Nat`, each element one
  byte.  `lit` gives the UTF-8 bytes of a literal, which is how the Go compiler stores the
  literals of a UTF-8 source file.
* The package-level variables `GPXF` and `RallyTitle` are fields of `State`.  `GPXF` is
  represented by the sequence of strings handed to `GPXF.WriteString`, in call order; the
  content of the file is their concatenation.  What the program prints on standard output is
  the field `Stdout`.
* The command-line flags are the fields of `Flags`.
* What the program takes from outside its own source is the structure `Runtime`: the rendering
  of a `float64` under `%v`, `coordsparser.Parse`, the width of `int`, and the order in which
  each `range` over the map of `xmlsafe` visits its five entries (Go leaves that order
  unspecified, and it may differ from one loop to the next).
* The type of `float64` values is a parameter `F`; no arithmetic is done on them.
* A column of a bonus row may be `NULL`; `Scan` models what `rows.Scan` then leaves in the
  variables.  The value of the rally-title query is taken not to be `NULL`.
* Output succeeds: `os.Create` gives a file and every `WriteString` appends its whole
  argument.  The errors of these calls are dropped by the program and are not part of the
  model.
-/

namespace GetGpx

/-- A Go string, as its sequence of bytes. -/
abbrev GoString := List Nat

/-- The bytes of a string literal (UTF-8). -/
def lit (s : String) : GoString := s.toUTF8.data.toList.map UInt8.toNat

/-! ## Library functions used by the program -/

/-- The scan of `ReplaceAll`: `skip` is the number of bytes of the current match that are
still to be passed over. Matches are found left to right and do not overlap. -/
def replaceFrom (old new : GoString) : Nat → GoString → GoString
  | _, [] => []
  | skip + 1, _ :: s => replaceFrom old new skip s
  | 0, c :: s =>
    if old.isPrefixOf (c :: s) then new ++ replaceFrom old new (old.length - 1) s
    else c :: replaceFrom old new 0 s

/-- Go's `strings.ReplaceAll(s, old, new)` for a non-empty `old`: every non-overlapping
occurrence of `old`, found left to right, is replaced by `new`.  The program calls it with
non-empty literals for `old` only; for an empty `old` (where Go inserts `new` around every
rune) this model leaves `s` as it is. -/
def ReplaceAll (s old new : GoString) : GoString :=
  if old = [] then s else replaceFrom old new 0 s

/-- Go's `%v` rendering of an `int`: its decimal digits, with a leading `-` when negative. -/
def fmtInt (n : Int) : GoString := lit (toString n)

/-- The value of a Go `int` of `bits` bits after an arithmetic result `x` (two's complement
wrap-around). -/
def wrapInt (bits : Nat) (x : Int) : Int :=
  (x + 2 ^ (bits - 1)) % 2 ^ bits - 2 ^ (bits - 1)

/-- The three results of `coordsparser.Parse`; `err` is `true` when the error is not `nil`. -/
structure ParseResult (F : Type) where
  Lat : F
  Lon : F
  err : Bool

/-- What the program takes from the Go runtime and its libraries. -/
structure Runtime (F : Type) where
  /-- The rendering of a `float64` under the verb `%v`. -/
  fmtFloat : F → GoString
  /-- The function `coordsparser.Parse`. -/
  Parse : GoString → ParseResult F
  /-- The order in which the `n`-th `range` loop over the map of `xmlsafe` visits the
  entries. -/
  order : Nat → List (GoString × GoString)
  /-- The width of the type `int` (32 or 64). -/
  intBits : Nat

/-! ## Package-level declarations -/

/-- The command-line flags (`-db`, `-map`, `-nolink`, `-symbol`, `-gpx`). -/
structure Flags where
  SourceDBName : GoString
  ExternalMapLink : GoString
  NoMapLink : Bool
  Symbol2Use : GoString
  OutputGPX : GoString

/-- The default values of the flags; `-db` is given by the caller. -/
def defaultFlags (db : GoString) : Flags where
  SourceDBName := db
  ExternalMapLink := lit "https://www.google.co.uk/maps/search/"
  NoMapLink := false
  Symbol2Use := lit "Circle, Green"
  OutputGPX := lit "waypoints.gpx"

def apptitle : GoString := lit "getgpx v0.1"

def gpxheader : GoString :=
  lit "<?xml version=\"1.0\" encoding=\"utf-8\"?>\n<gpx creator=\"Bob Stammers (" ++ apptitle ++
  lit ")\" version=\"1.1\"\nxsi:schemaLocation=\"http://www.topografix.com/GPX/1/1 \nhttp://www.topografix.com/GPX/1/1/gpx.xsd\" \nxmlns=\"http://www.topografix.com/GPX/1/1\" \nxmlns:xsi=\"http://www.w3.org/2001/XMLSchema-instance\">\n"

/-- The mutable state of a run. -/
structure State where
  /-- The strings handed to `GPXF.WriteString` so far, in call order. -/
  GPXF : List GoString
  /-- The package variable `RallyTitle`. -/
  RallyTitle : GoString
  /-- The text printed on standard output so far. -/
  Stdout : GoString
  /-- The number of `range` loops over the map of `xmlsafe` run so far. -/
  ranges : Nat

/-- The content of the output file: the concatenation of what was written to it. -/
def State.content (st : State) : GoString := st.GPXF.flatten

/-- The call `GPXF.WriteString(s)`. -/
def WriteString (st : State) (s : GoString) : State :=
  { st with GPXF := st.GPXF ++ [s] }

/-- A call of `fmt.Printf` or `fmt.Println` whose rendered text is `s`. -/
def Print (st : State) (s : GoString) : State :=
  { st with Stdout := st.Stdout ++ s }

/-! ## `xmlsafe` -/

/-- The map literal `x` of `xmlsafe`, in the order its entries are written. -/
def xmlsafeMap : List (GoString × GoString) :=
  [(lit "&", lit "&amp;"), (lit "\"", lit "&quot;"), (lit "<", lit "&lt;"),
   (lit ">", lit "&gt;"), (lit "'", lit "&#39;")]

/-- The body of `xmlsafe` when the `range` loop visits the entries in the order `order`:
`res` starts as `s` and each entry `k, v` does `res = strings.ReplaceAll(res, k, v)`. -/
def xmlsafeWith (order : List (GoString × GoString)) (s : GoString) : GoString :=
  order.foldl (fun res kv => ReplaceAll res kv.1 kv.2) s

/-- A call `xmlsafe(s)`: the loop takes the next iteration order of the runtime. -/
def xmlsafe {F : Type} (rt : Runtime F) (st : State) (s : GoString) : GoString × State :=
  (xmlsafeWith (rt.order st.ranges) s, { st with ranges := st.ranges + 1 })

/-- The iteration orders the language allows: each entry of the map exactly once. -/
def IsIterationOrder (order : List (GoString × GoString)) : Prop :=
  order.Perm xmlsafeMap

/-! ## `writeWaypoint`, `completeGPX` -/

def writeWaypoint {F : Type} (rt : Runtime F) (fl : Flags) (st : State)
    (lat lon : F) (bonusid briefdesc : GoString) : State :=
  let (xid, st) := xmlsafe rt st bonusid
  let wpt := lit "<wpt lat=\"" ++ rt.fmtFloat lat ++ lit "\" lon=\"" ++ rt.fmtFloat lon ++
    lit "\"><name>" ++ xid
  let (xdesc, st) := xmlsafe rt st briefdesc
  let wpt := wpt ++ (lit "-" ++ xdesc)
  let wpt := wpt ++ lit "</name>"
  let st := WriteString st wpt
  let st :=
    if st.RallyTitle ≠ [] then
      let (xtitle, st) := xmlsafe rt st st.RallyTitle
      WriteString st (lit "<cmt>" ++ xtitle ++ lit "</cmt>")
    else st
  let st :=
    if fl.ExternalMapLink ≠ [] ∧ ¬ fl.NoMapLink then
      WriteString st (lit "<link href=\"" ++ fl.ExternalMapLink ++ rt.fmtFloat lat ++ lit "," ++
        rt.fmtFloat lon ++ lit "\" />")
    else st
  let st :=
    if fl.Symbol2Use ≠ [] then WriteString st (lit "<sym>" ++ fl.Symbol2Use ++ lit "</sym>")
    else st
  WriteString st (lit "</wpt>\n")

def completeGPX (st : State) : State :=
  WriteString st (lit "</gpx>\n")

/-! ## `generateWaypoints` -/

/-- A row the bonus query delivers: the columns `BonusID`, `BriefDesc` and `Coords`, each as
the string `rows.Scan` converts it to, or `none` when the column is `NULL`. -/
structure Row where
  BonusID : Option GoString
  BriefDesc : Option GoString
  Coords : Option GoString

/-- The argument `generateWaypoints` gives to `coordsparser.Parse`:
`strings.ReplaceAll(strings.ReplaceAll(coords, "Â°", " "), "'", " ")`.  The first pattern is
the four bytes `C3 82 C2 B0` of the source file. -/
def preprocess (coords : GoString) : GoString :=
  ReplaceAll (ReplaceAll coords (lit "Â°") (lit " ")) (lit "'") (lit " ")

/-- The variables of `generateWaypoints` that live across the iterations of its loop:
`bonus`, `title` and `coords` are declared before the loop, as the two counters are. -/
structure Loop where
  st : State
  bonus : GoString
  title : GoString
  coords : GoString
  bonusCount : Int
  badCoordCount : Int

/-- The call `rows.Scan(&bonus, &title, &coords)`, whose error the program drops: the
columns are assigned from left to right, and a `NULL` column, which cannot be stored in a
`string`, ends the call; its variable and those after it keep the values they had. -/
def Scan (l : Loop) (row : Row) : Loop :=
  match row.BonusID with
  | none => l
  | some b =>
    let l := { l with bonus := b }
    match row.BriefDesc with
    | none => l
    | some t =>
      let l := { l with title := t }
      match row.Coords with
      | none => l
      | some c => { l with coords := c }

/-- One iteration of the `for rows.Next()` loop. -/
def loopBody {F : Type} (rt : Runtime F) (fl : Flags) (l : Loop) (row : Row) : Loop :=
  let l := Scan l row
  let l := { l with bonusCount := wrapInt rt.intBits (l.bonusCount + 1) }
  let r := rt.Parse (preprocess l.coords)
  if r.err then
    { l with badCoordCount := wrapInt rt.intBits (l.badCoordCount + 1) }
  else
    { l with st := writeWaypoint rt fl l.st r.Lat r.Lon l.bonus l.title }

/-- The query text of `generateWaypoints`. -/
def bonusSql : GoString :=
  lit "SELECT BonusID, BriefDesc, Coords FROM bonuses WHERE Coords IS NOT NULL AND Coords <> ''" ++
  lit " ORDER BY BonusID"

/-- The loop of `generateWaypoints` over the rows the query delivers; `bonus`, `title` and
`coords` start as the empty string, the counters as zero. -/
def runLoop {F : Type} (rt : Runtime F) (fl : Flags) (st : State) (rows : List Row) : Loop :=
  rows.foldl (loopBody rt fl)
    { st := st, bonus := [], title := [], coords := [], bonusCount := 0, badCoordCount := 0 }

/-- The summary line printed after the loop. -/
def summary (bonusCount badCoordCount : Int) : GoString :=
  fmtInt bonusCount ++ lit " bonuses read including " ++ fmtInt badCoordCount ++
    lit " with bad coordinates\n\n"

/-- The function `generateWaypoints`; `query` is the result of `DBH.Query`: the text of the
error, or the rows. -/
def generateWaypoints {F : Type} (rt : Runtime F) (fl : Flags) (st : State)
    (query : Except GoString (List Row)) : State :=
  match query with
  | .error err => Print st (lit "ERROR! " ++ bonusSql ++ lit "\nproduced " ++ err ++ lit "\n")
  | .ok rows =>
    let l := runLoop rt fl st rows
    Print l.st (summary l.bonusCount l.badCoordCount)

/-! ## `main` -/

/-- What `main` finds outside the program. -/
structure Env where
  /-- Whether `os.Stat` of the database path succeeds. -/
  dbExists : Bool
  /-- The error of `sql.Open`, if any. -/
  openErr : Option GoString
  /-- The result of the query for the rally title: the text of the error, or the first column
  of the rows. -/
  titleQuery : Except GoString (List GoString)
  /-- The result of the query for the bonuses. -/
  bonusQuery : Except GoString (List Row)

/-- How a run of `main` ends. -/
inductive Outcome where
  /-- The function returned before `os.Create`. -/
  | returnedEarly
  /-- The call `panic(err)` after `sql.Open`. -/
  | panicked
  /-- The function ran to its last statement; the output file was created. -/
  | completed
deriving DecidableEq, Repr

def titleSql : GoString := lit "SELECT RallyTitle FROM rallyparams"

def banner : GoString :=
  apptitle ++ lit " Copyright (c) 2023 Bob Stammers\nI extract bonus coordinates from a ScoreMaster database into a GPX file\n\n"

/-- The function `main`, from the state before any output. -/
def main {F : Type} (rt : Runtime F) (fl : Flags) (env : Env) : Outcome × State :=
  let st : State := { GPXF := [], RallyTitle := [], Stdout := [], ranges := 0 }
  let st := Print st banner
  if fl.SourceDBName = [] then
    (.returnedEarly, Print st (lit "You must specify the database to use, -db path" ++ lit "\n"))
  else if ¬ env.dbExists then
    (.returnedEarly, Print st (lit "The database " ++ fl.SourceDBName ++ lit " does not exist\n"))
  else if env.openErr.isSome then
    (.panicked, st)
  else
    match env.titleQuery with
    | .error err =>
      (.returnedEarly, Print st (lit "ERROR! " ++ titleSql ++ lit "\nproduced " ++ err ++ lit "\n"))
    | .ok rows =>
      let st := { st with RallyTitle := [] }
      let st :=
        match rows with
        | title :: _ => { st with RallyTitle := title }
        | [] => st
      if fl.OutputGPX = [] then
        (.returnedEarly, Print st (lit "You must specify the GPX to create, -gpx path" ++ lit "\n"))
      else
        let st := Print st (lit "Generating GPX " ++ fl.OutputGPX ++ lit "\n")
        let st := { st with GPXF := [] }
        let st := WriteString st gpxheader
        let st := generateWaypoints rt fl st env.bonusQuery
        let st := completeGPX st
        (.completed, st)

/-! ## Vocabulary of the statements -/

/-- The string `s` with every byte `k` replaced by the string `v`. -/
def subst1 (k : Nat) (v s : GoString) : GoString :=
  s.flatMap (fun c => if c = k then v else [c])

/-- The five entity references `xmlsafe` produces. -/
def entities : List GoString :=
  [lit "&amp;", lit "&quot;", lit "&lt;", lit "&gt;", lit "&#39;"]

/-- Every `&` of `t` is the first byte of an entity reference (computed left to right). -/
def ampOK : GoString → Bool
  | [] => true
  | c :: t => (c != 38 || entities.any (fun e => e.isPrefixOf (c :: t))) && ampOK t

/-- The entries of the map of `xmlsafe`, each key as the byte it is. -/
def byteTable : List (Nat × GoString) :=
  [(38, [38, 97, 109, 112, 59]), (34, [38, 113, 117, 111, 116, 59]),
   (60, [38, 108, 116, 59]), (62, [38, 103, 116, 59]), (39, [38, 35, 51, 57, 59])]

/-- The strings handed to `GPXF.WriteString` between the states `st` and `st'`. -/
def writes (st st' : State) : List GoString := st'.GPXF.drop st.GPXF.length

/-- The text appended to the output file between the states `st` and `st'`. -/
def written (st st' : State) : GoString := (writes st st').flatten

/-- A row none of whose columns is `NULL`. -/
def Row.complete (row : Row) : Prop :=
  row.BonusID.isSome = true ∧ row.BriefDesc.isSome = true ∧ row.Coords.isSome = true

/-- The test `err != nil` on the coordinates of a row: the parser rejects them after the
preprocessing. -/
def rejects {F : Type} (rt : Runtime F) (row : Row) : Bool :=
  (rt.Parse (preprocess (row.Coords.getD []))).err

/-- One step of the left-to-right search for `<link`: the state is the number of bytes of
`<link` read at the end of the text so far, and stays `5` once the whole of it was read. -/
def linkStep (k c : Nat) : Nat :=
  if 5 ≤ k then 5
  else if c = (lit "<link").getD k 0 then k + 1
  else if c = 60 then 1
  else 0

/-- The state of the search for `<link` after the text `s`, from the state `k`. -/
def linkRun (k : Nat) (s : GoString) : Nat := s.foldl linkStep k

/-! ## Lemmas on `ReplaceAll` and `xmlsafe` -/

theorem xmlsafeMap_eq : xmlsafeMap =
    [([38], [38, 97, 109, 112, 59]), ([34], [38, 113, 117, 111, 116, 59]),
     ([60], [38, 108, 116, 59]), ([62], [38, 103, 116, 59]), ([39], [38, 35, 51, 57, 59])] := by
  decide

theorem entities_eq : entities =
    [[38, 97, 109, 112, 59], [38, 113, 117, 111, 116, 59], [38, 108, 116, 59],
     [38, 103, 116, 59], [38, 35, 51, 57, 59]] := by
  decide

theorem replaceFrom_single (k : Nat) (v s : GoString) :
    replaceFrom [k] v 0 s = subst1 k v s := by
  induction s with
  | nil => simp [replaceFrom, subst1]
  | cons c s ih =>
    by_cases h : c = k
    · subst h
      simp [replaceFrom, subst1, List.isPrefixOf] at ih ⊢
      exact ih
    · have h2 : ¬ k = c := fun e => h e.symm
      simp [replaceFrom, subst1, List.isPrefixOf, h, h2] at ih ⊢
      exact ih

theorem ReplaceAll_single (k : Nat) (v s : GoString) :
    ReplaceAll s [k] v = subst1 k v s := by
  simp [ReplaceAll, replaceFrom_single]

theorem subst1_nil (k : Nat) (v : GoString) : subst1 k v [] = [] := rfl

theorem subst1_cons (k : Nat) (v : GoString) (c : Nat) (s : GoString) :
    subst1 k v (c :: s) = (if c = k then v else [c]) ++ subst1 k v s := by
  simp [subst1]

theorem subst1_append (k : Nat) (v s t : GoString) :
    subst1 k v (s ++ t) = subst1 k v s ++ subst1 k v t := by
  simp [subst1]

theorem subst1_of_not_mem (k : Nat) (v s : GoString) (h : k ∉ s) : subst1 k v s = s := by
  induction s with
  | nil => rfl
  | cons c s ih =>
    have hc : ¬ c = k := fun e => h (by simp [e])
    have hs : k ∉ s := fun e => h (by simp [e])
    simp [subst1_cons, hc, ih hs]

theorem mem_subst1 (k : Nat) (v s : GoString) (c : Nat) :
    c ∈ subst1 k v s ↔ (c ≠ k ∧ c ∈ s) ∨ (k ∈ s ∧ c ∈ v) := by
  induction s with
  | nil => simp [subst1]
  | cons d s ih =>
    rw [subst1_cons, List.mem_append, ih]
    by_cases h : d = k
    · subst h; simp; tauto
    · simp [h]
      constructor
      · rintro (h1 | h1 | h1)
        · subst h1; exact Or.inl ⟨h, Or.inl rfl⟩
        · exact Or.inl ⟨h1.1, Or.inr h1.2⟩
        · exact Or.inr ⟨Or.inr h1.1, h1.2⟩
      · rintro (⟨h1, h2 | h2⟩ | ⟨h1 | h1, h2⟩)
        · exact Or.inl h2
        · exact Or.inr (Or.inl ⟨h1, h2⟩)
        · exact absurd h1.symm h
        · exact Or.inr (Or.inr ⟨h1, h2⟩)

/-- Each step of the loop of `xmlsafe` replaces one byte. -/
theorem step_eq_subst1 {kv : GoString × GoString} (h : kv ∈ xmlsafeMap) (s : GoString) :
    ∃ k v, kv = ([k], v) ∧ ReplaceAll s kv.1 kv.2 = subst1 k v s ∧
      (k, v) ∈ [(38, [38, 97, 109, 112, 59]), (34, [38, 113, 117, 111, 116, 59]),
        (60, [38, 108, 116, 59]), (62, [38, 103, 116, 59]), (39, [38, 35, 51, 57, 59])] := by
  rw [xmlsafeMap_eq] at h
  simp only [List.mem_cons, List.mem_singleton, List.not_mem_nil, or_false] at h
  rcases h with h | h | h | h | h <;> subst h <;>
    exact ⟨_, _, rfl, ReplaceAll_single _ _ _, by simp⟩

theorem step_in_table {kv : GoString × GoString} (h : kv ∈ xmlsafeMap) (s : GoString) :
    ∃ k v, kv = ([k], v) ∧ ReplaceAll s kv.1 kv.2 = subst1 k v s ∧ (k, v) ∈ byteTable :=
  step_eq_subst1 h s

theorem xmlsafeWith_cons (kv : GoString × GoString) (order : List (GoString × GoString))
    (s : GoString) :
    xmlsafeWith (kv :: order) s = xmlsafeWith order (ReplaceAll s kv.1 kv.2) := rfl

theorem special_not_mem_value {k : Nat} {v : GoString} (h : (k, v) ∈ byteTable)
    {c : Nat} (hc : c ∈ [34, 60, 62, 39]) : c ∉ v := by
  simp only [byteTable, List.mem_cons, List.mem_singleton, List.not_mem_nil, or_false,
    Prod.mk.injEq] at h hc
  rcases h with ⟨-, h⟩ | ⟨-, h⟩ | ⟨-, h⟩ | ⟨-, h⟩ | ⟨-, h⟩ <;> subst h <;>
    rcases hc with hc | hc | hc | hc <;> subst hc <;> decide

/-- A special byte that is absent, or whose entry is still to come, is absent at the end. -/
theorem special_not_mem_xmlsafeWith {c : Nat} (hc : c ∈ [34, 60, 62, 39]) :
    ∀ (order : List (GoString × GoString)), (∀ kv ∈ order, kv ∈ xmlsafeMap) →
      ∀ s : GoString, (c ∉ s ∨ ∃ kv ∈ order, kv.1 = [c]) → c ∉ xmlsafeWith order s := by
  intro order
  induction order with
  | nil =>
    intro _ s h
    rcases h with h | ⟨kv, hkv, -⟩
    · exact h
    · simp at hkv
  | cons kv rest ih =>
    intro hsub s h
    rw [xmlsafeWith_cons]
    obtain ⟨k, v, hkv, hrep, htab⟩ := step_in_table (hsub kv (by simp)) s
    rw [hrep]
    apply ih (fun x hx => hsub x (by simp [hx]))
    have hv : c ∉ v := special_not_mem_value htab hc
    rcases h with h | ⟨kv2, hmem, hkey⟩
    · left
      rw [mem_subst1]
      rintro (⟨-, h1⟩ | ⟨-, h1⟩)
      · exact h h1
      · exact hv h1
    · rcases List.mem_cons.mp hmem with h1 | h1
      · left
        subst h1
        rw [hkv] at hkey
        have hk : k = c := by simpa using hkey
        subst hk
        rw [mem_subst1]
        rintro (⟨h2, -⟩ | ⟨-, h2⟩)
        · exact h2 rfl
        · exact hv h2
      · right
        exact ⟨kv2, h1, hkey⟩

theorem ampOK_value_append {k : Nat} {v : GoString} (h : (k, v) ∈ byteTable) (t : GoString) :
    ampOK (v ++ t) = ampOK t := by
  simp only [byteTable, List.mem_cons, List.mem_singleton, List.not_mem_nil, or_false,
    Prod.mk.injEq] at h
  rcases h with ⟨-, h⟩ | ⟨-, h⟩ | ⟨-, h⟩ | ⟨-, h⟩ | ⟨-, h⟩ <;> subst h <;>
    simp [ampOK, entities_eq, List.isPrefixOf]

theorem ampOK_subst1_amp (s : GoString) : ampOK (subst1 38 [38, 97, 109, 112, 59] s) = true := by
  induction s with
  | nil => rfl
  | cons c s ih =>
    rw [subst1_cons]
    by_cases h : c = 38
    · rw [if_pos h, ampOK_value_append (k := 38) (by simp [byteTable]), ih]
    · rw [if_neg h]
      simp [ampOK, h, ih]

/-- An entity reference at the head of a string stays there when another byte is replaced. -/
theorem entity_head_subst1 {k : Nat} {v : GoString} (h : (k, v) ∈ byteTable) (hk : k ≠ 38)
    (t : GoString) (hp : entities.any (fun e => e.isPrefixOf (38 :: t)) = true) :
    entities.any (fun e => e.isPrefixOf (38 :: subst1 k v t)) = true := by
  simp only [byteTable, List.mem_cons, List.mem_singleton, List.not_mem_nil, or_false,
    Prod.mk.injEq] at h
  simp only [entities_eq, List.any_cons, List.any_nil, Bool.or_false, Bool.or_eq_true,
    List.isPrefixOf_iff_prefix] at hp ⊢
  rcases h with ⟨h1, h⟩ | ⟨h1, h⟩ | ⟨h1, h⟩ | ⟨h1, h⟩ | ⟨h1, h⟩ <;> subst h <;> subst h1
  · exact absurd rfl hk
  all_goals
    rcases hp with ⟨r, hr⟩ | ⟨r, hr⟩ | ⟨r, hr⟩ | ⟨r, hr⟩ | ⟨r, hr⟩ <;>
      simp only [List.cons_append, List.nil_append, List.cons.injEq, true_and] at hr <;>
      subst hr <;>
      simp [subst1_cons, List.prefix_iff_eq_append]

theorem ampOK_subst1_other {k : Nat} {v : GoString} (h : (k, v) ∈ byteTable) (hk : k ≠ 38) :
    ∀ s : GoString, ampOK s = true → ampOK (subst1 k v s) = true := by
  intro s
  induction s with
  | nil => intro _; rfl
  | cons c s ih =>
    intro hs
    simp only [ampOK, Bool.and_eq_true, Bool.or_eq_true, bne_iff_ne, ne_eq] at hs
    rw [subst1_cons]
    by_cases hc : c = k
    · rw [if_pos hc, ampOK_value_append h, ih hs.2]
    · rw [if_neg hc]
      simp only [List.singleton_append, ampOK, Bool.and_eq_true, Bool.or_eq_true, bne_iff_ne,
        ne_eq]
      refine ⟨?_, ih hs.2⟩
      rcases hs.1 with h1 | h1
      · exact Or.inl h1
      · by_cases h38 : c = 38
        · subst h38
          exact Or.inr (entity_head_subst1 h hk s h1)
        · exact Or.inl h38

/-- Once the entry of `&` has been applied, or if the string was fine before, every `&` of
the result starts an entity reference. -/
theorem ampOK_xmlsafeWith :
    ∀ (order : List (GoString × GoString)), (∀ kv ∈ order, kv ∈ xmlsafeMap) →
      ∀ s : GoString, (ampOK s = true ∨ ∃ kv ∈ order, kv.1 = [38]) →
        ampOK (xmlsafeWith order s) = true := by
  intro order
  induction order with
  | nil =>
    intro _ s h
    rcases h with h | ⟨kv, hkv, -⟩
    · exact h
    · simp at hkv
  | cons kv rest ih =>
    intro hsub s h
    rw [xmlsafeWith_cons]
    obtain ⟨k, v, hkv, hrep, htab⟩ := step_in_table (hsub kv (by simp)) s
    rw [hrep]
    apply ih (fun x hx => hsub x (by simp [hx]))
    by_cases hk : k = 38
    · left
      subst hk
      have hv : v = [38, 97, 109, 112, 59] := by
        simp [byteTable] at htab
        exact htab
      rw [hv]
      exact ampOK_subst1_amp s
    · rcases h with h | ⟨kv2, hmem, hkey⟩
      · exact Or.inl (ampOK_subst1_other htab hk s h)
      · rcases List.mem_cons.mp hmem with h1 | h1
        · subst h1
          rw [hkv] at hkey
          exact absurd (by simpa using hkey) hk
        · exact Or.inr ⟨kv2, h1, hkey⟩

theorem ampOK_spec : ∀ (t : GoString), ampOK t = true → ∀ pre post : GoString,
    t = pre ++ 38 :: post → ∃ e ∈ entities, e <+: 38 :: post := by
  intro t ht pre
  induction pre generalizing t with
  | nil =>
    intro post hpost
    subst hpost
    simp only [List.nil_append, ampOK, Bool.and_eq_true, Bool.or_eq_true, bne_iff_ne, ne_eq,
      not_true_eq_false, false_or, List.any_eq_true] at ht
    obtain ⟨e, he, hp⟩ := ht.1
    exact ⟨e, he, List.isPrefixOf_iff_prefix.mp hp⟩
  | cons p pre ih =>
    intro post hpost
    subst hpost
    simp only [List.cons_append, ampOK, Bool.and_eq_true] at ht
    exact ih _ ht.2 post rfl

theorem mem_of_iterationOrder {order : List (GoString × GoString)} (h : IsIterationOrder order) :
    (∀ kv ∈ order, kv ∈ xmlsafeMap) ∧ ∀ k : Nat, k ∈ [38, 34, 60, 62, 39] →
      ∃ kv ∈ order, kv.1 = [k] := by
  refine ⟨fun kv hkv => (List.Perm.mem_iff h).mp hkv, fun k hk => ?_⟩
  have hall : ∀ kv, kv ∈ xmlsafeMap → kv ∈ order := fun kv hkv => (List.Perm.mem_iff h).mpr hkv
  simp only [List.mem_cons, List.mem_singleton, List.not_mem_nil, or_false] at hk
  rcases hk with hk | hk | hk | hk | hk <;> subst hk
  · exact ⟨_, hall ([38], [38, 97, 109, 112, 59]) (by rw [xmlsafeMap_eq]; simp), rfl⟩
  · exact ⟨_, hall ([34], [38, 113, 117, 111, 116, 59]) (by rw [xmlsafeMap_eq]; simp), rfl⟩
  · exact ⟨_, hall ([60], [38, 108, 116, 59]) (by rw [xmlsafeMap_eq]; simp), rfl⟩
  · exact ⟨_, hall ([62], [38, 103, 116, 59]) (by rw [xmlsafeMap_eq]; simp), rfl⟩
  · exact ⟨_, hall ([39], [38, 35, 51, 57, 59]) (by rw [xmlsafeMap_eq]; simp), rfl⟩

/-- The result of `xmlsafe` has none of the bytes `"`, `<`, `>`, `'`. -/
theorem special_not_mem_xmlsafe {order : List (GoString × GoString)}
    (h : IsIterationOrder order) (s : GoString) {c : Nat} (hc : c ∈ [34, 60, 62, 39]) :
    c ∉ xmlsafeWith order s := by
  obtain ⟨hsub, hall⟩ := mem_of_iterationOrder h
  refine special_not_mem_xmlsafeWith hc order hsub s (Or.inr (hall c ?_))
  simp only [List.mem_cons, List.mem_singleton, List.not_mem_nil, or_false] at hc ⊢
  omega

/-! ## C2 -/

/-- C2. For every input string and every order in which the five entries of the map are
visited, the result of `xmlsafe` is well-formed XML text: it has no `<`, `>`, `"` or `'`, and
every `&` in it is the first byte of one of `&amp;`, `&quot;`, `&lt;`, `&gt;`, `&#39;`. -/
theorem xmlsafe_wellFormed (order : List (GoString × GoString)) (h : IsIterationOrder order)
    (s : GoString) :
    (∀ c ∈ lit "<>\"'", c ∉ xmlsafeWith order s) ∧
    ∀ pre post : GoString, xmlsafeWith order s = pre ++ lit "&" ++ post →
      ∃ e ∈ [lit "&amp;", lit "&quot;", lit "&lt;", lit "&gt;", lit "&#39;"],
        ∃ rest : GoString, lit "&" ++ post = e ++ rest := by
  constructor
  · intro c hc
    have hl : lit "<>\"'" = [60, 62, 34, 39] := by decide
    rw [hl] at hc
    refine special_not_mem_xmlsafe h s ?_
    simp only [List.mem_cons, List.mem_singleton, List.not_mem_nil, or_false] at hc ⊢
    omega
  · intro pre post hpost
    obtain ⟨hsub, hall⟩ := mem_of_iterationOrder h
    have hok := ampOK_xmlsafeWith order hsub s (Or.inr (hall 38 (by simp)))
    have hamp : lit "&" = [38] := by decide
    rw [hamp] at hpost ⊢
    obtain ⟨e, he, r, hr⟩ := ampOK_spec _ hok pre post (by simpa using hpost)
    exact ⟨e, he, r, by simpa using hr.symm⟩

/-- The property C2 at the input `a<&>"b'&amp;` with the entries in the order of the map
literal. -/
theorem xmlsafe_wellFormed_witness :
    IsIterationOrder xmlsafeMap ∧
    ((∀ c ∈ lit "<>\"'", c ∉ xmlsafeWith xmlsafeMap (lit "a<&>\"b'&amp;")) ∧
    ∀ pre post : GoString, xmlsafeWith xmlsafeMap (lit "a<&>\"b'&amp;") = pre ++ lit "&" ++ post →
      ∃ e ∈ [lit "&amp;", lit "&quot;", lit "&lt;", lit "&gt;", lit "&#39;"],
        ∃ rest : GoString, lit "&" ++ post = e ++ rest) :=
  ⟨List.Perm.refl _, xmlsafe_wellFormed xmlsafeMap (List.Perm.refl _) _⟩

/-! ## C10, C5 -/

theorem amp_mem_xmlsafeWith :
    ∀ (order : List (GoString × GoString)), (∀ kv ∈ order, kv ∈ xmlsafeMap) →
      ∀ s : GoString, 38 ∈ s → 38 ∈ xmlsafeWith order s := by
  intro order
  induction order with
  | nil => intro _ s h; exact h
  | cons kv rest ih =>
    intro hsub s h
    rw [xmlsafeWith_cons]
    obtain ⟨k, v, hkv, hrep, htab⟩ := step_in_table (hsub kv (by simp)) s
    rw [hrep]
    apply ih (fun x hx => hsub x (by simp [hx]))
    rw [mem_subst1]
    by_cases hk : k = 38
    · right
      subst hk
      have hv : v = [38, 97, 109, 112, 59] := by
        simp [byteTable] at htab
        exact htab
      exact ⟨h, by simp [hv]⟩
    · exact Or.inl ⟨fun e => hk e.symm, h⟩

theorem special_not_mem_subst1_amp {s : GoString} (hs : ∀ c ∈ [34, 60, 62, 39], c ∉ s) :
    ∀ c ∈ [34, 60, 62, 39], c ∉ subst1 38 [38, 97, 109, 112, 59] s := by
  intro c hc
  rw [mem_subst1]
  rintro (⟨-, h1⟩ | ⟨-, h1⟩)
  · exact hs c hc h1
  · exact special_not_mem_value (k := 38) (by simp [byteTable]) hc h1

/-- On a string without `"`, `<`, `>`, `'` only the entry of `&` changes anything. -/
theorem xmlsafeWith_of_no_special :
    ∀ (order : List (GoString × GoString)), (∀ kv ∈ order, kv ∈ xmlsafeMap) →
      ∀ s : GoString, (∀ c ∈ [34, 60, 62, 39], c ∉ s) →
        xmlsafeWith order s =
          (subst1 38 [38, 97, 109, 112, 59])^[order.countP (fun kv => decide (kv.1 = [38]))] s := by
  intro order
  induction order with
  | nil => intro _ s _; rfl
  | cons kv rest ih =>
    intro hsub s hs
    rw [xmlsafeWith_cons]
    obtain ⟨k, v, hkv, hrep, htab⟩ := step_in_table (hsub kv (by simp)) s
    rw [hrep]
    have hrest : ∀ x ∈ rest, x ∈ xmlsafeMap := fun x hx => hsub x (by simp [hx])
    by_cases hk : k = 38
    · subst hk
      have hv : v = [38, 97, 109, 112, 59] := by
        simp [byteTable] at htab
        exact htab
      subst hv
      rw [ih hrest _ (special_not_mem_subst1_amp hs), hkv,
        List.countP_cons_of_pos _ _ (by simp), Function.iterate_succ_apply]
    · have hks : k ∈ [34, 60, 62, 39] := by
        simp only [byteTable, List.mem_cons, List.mem_singleton, List.not_mem_nil, or_false,
          Prod.mk.injEq] at htab ⊢
        omega
      rw [subst1_of_not_mem k v s (hs k hks), ih hrest s hs, hkv,
        List.countP_cons_of_neg _ _ (by simpa using hk)]

theorem xmlsafeWith_eq_subst1_amp {order : List (GoString × GoString)}
    (h : IsIterationOrder order) (s : GoString) (hs : ∀ c ∈ [34, 60, 62, 39], c ∉ s) :
    xmlsafeWith order s = subst1 38 [38, 97, 109, 112, 59] s := by
  have hcount : order.countP (fun kv => decide (kv.1 = [38])) = 1 := by
    rw [List.Perm.countP_eq _ h, xmlsafeMap_eq]
    decide
  rw [xmlsafeWith_of_no_special order (mem_of_iterationOrder h).1 s hs, hcount]
  rfl

theorem length_subst1_amp (s : GoString) :
    (subst1 38 [38, 97, 109, 112, 59] s).length = s.length + 4 * s.count 38 := by
  induction s with
  | nil => rfl
  | cons c s ih =>
    rw [subst1_cons, List.length_append, ih]
    by_cases h : c = 38
    · subst h
      simp
      omega
    · have h2 : ¬ (c == 38) = true := by simpa using h
      simp [h, List.count_cons, h2]
      omega

/-- C10. `xmlsafe` escapes every literal ampersand, also one that already begins an entity
reference: for a string without `"`, `<`, `>`, `'` and for every iteration order the result
is the string with every `&` replaced by `&amp;` (the string itself when it has no `&`); so
`&amp;` becomes `&amp;amp;`; and applying `xmlsafe` to its own result changes that result
whenever the input contains `&`. -/
theorem xmlsafe_escapes_every_amp (order : List (GoString × GoString))
    (h : IsIterationOrder order) (s : GoString) :
    ((∀ c ∈ lit "\"<>'", c ∉ s) →
      xmlsafeWith order s = s.flatMap (fun c => if [c] = lit "&" then lit "&amp;" else [c]) ∧
      ((∀ c ∈ lit "&", c ∉ s) → xmlsafeWith order s = s)) ∧
    xmlsafeWith order (lit "&amp;") = lit "&amp;amp;" ∧
    ∀ order2 : List (GoString × GoString), IsIterationOrder order2 → (∀ c ∈ lit "&", c ∈ s) →
      xmlsafeWith order2 (xmlsafeWith order s) ≠ xmlsafeWith order s := by
  have hsp : lit "\"<>'" = [34, 60, 62, 39] := by decide
  have hamp : lit "&" = [38] := by decide
  have hent : lit "&amp;" = [38, 97, 109, 112, 59] := by decide
  rw [hsp, hamp, hent]
  refine ⟨fun hs => ⟨?_, fun hno => ?_⟩, ?_, fun order2 h2 hin => ?_⟩
  · rw [xmlsafeWith_eq_subst1_amp h s hs]
    simp [subst1]
  · rw [xmlsafeWith_eq_subst1_amp h s hs]
    exact subst1_of_not_mem 38 _ s (hno 38 (by simp))
  · rw [xmlsafeWith_eq_subst1_amp h _ (by decide)]
    decide
  · have hmem : 38 ∈ xmlsafeWith order s :=
      amp_mem_xmlsafeWith order (mem_of_iterationOrder h).1 s (hin 38 (by simp))
    have hns : ∀ c ∈ [34, 60, 62, 39], c ∉ xmlsafeWith order s :=
      fun c hc => special_not_mem_xmlsafe h s hc
    rw [xmlsafeWith_eq_subst1_amp h2 _ hns]
    intro heq
    have hlen := congrArg List.length heq
    rw [length_subst1_amp] at hlen
    have hpos : 0 < (xmlsafeWith order s).count 38 := List.count_pos_iff.mpr hmem
    omega

/-- The property C10 at the input `a&b` with the entries in the order of the map literal,
the second call visiting them from `"` on. -/
theorem xmlsafe_escapes_every_amp_witness :
    IsIterationOrder xmlsafeMap ∧ IsIterationOrder (xmlsafeMap.rotate 1) ∧
    xmlsafeWith xmlsafeMap (lit "a&b") = lit "a&amp;b" ∧
    xmlsafeWith (xmlsafeMap.rotate 1) (xmlsafeWith xmlsafeMap (lit "a&b")) ≠
      xmlsafeWith xmlsafeMap (lit "a&b") := by
  have h1 : IsIterationOrder xmlsafeMap := List.Perm.refl _
  have h2 : IsIterationOrder (xmlsafeMap.rotate 1) := List.rotate_perm _ _
  have h := xmlsafe_escapes_every_amp xmlsafeMap h1 (lit "a&b")
  refine ⟨h1, h2, ?_, h.2.2 _ h2 (by decide)⟩
  rw [(h.1 (by decide)).1]
  decide

/-- C5. The result of `xmlsafe` depends on the order in which the entries of the map are
visited: on the input `<`, the order of the map literal (`&` first) gives `&lt;`, and the
order that starts at `"` (`&` last) gives `&amp;lt;`. -/
theorem xmlsafe_order_dependent :
    IsIterationOrder xmlsafeMap ∧ IsIterationOrder (xmlsafeMap.rotate 1) ∧
    xmlsafeWith xmlsafeMap (lit "<") = lit "&lt;" ∧
    xmlsafeWith (xmlsafeMap.rotate 1) (lit "<") = lit "&amp;lt;" :=
  ⟨List.Perm.refl _, List.rotate_perm _ _, by decide, by decide⟩

/-! ## `writeWaypoint` -/

theorem writeWaypoint_GPXF {F : Type} (rt : Runtime F) (fl : Flags) (st : State)
    (lat lon : F) (bonusid briefdesc : GoString) :
    (writeWaypoint rt fl st lat lon bonusid briefdesc).GPXF =
      st.GPXF ++
        ([lit "<wpt lat=\"" ++ rt.fmtFloat lat ++ lit "\" lon=\"" ++ rt.fmtFloat lon ++
            lit "\"><name>" ++ xmlsafeWith (rt.order st.ranges) bonusid ++ lit "-" ++
            xmlsafeWith (rt.order (st.ranges + 1)) briefdesc ++ lit "</name>"] ++
          (if st.RallyTitle = [] then []
            else [lit "<cmt>" ++ xmlsafeWith (rt.order (st.ranges + 2)) st.RallyTitle ++
              lit "</cmt>"]) ++
          (if fl.ExternalMapLink = [] ∨ fl.NoMapLink = true then []
            else [lit "<link href=\"" ++ fl.ExternalMapLink ++ rt.fmtFloat lat ++ lit "," ++
              rt.fmtFloat lon ++ lit "\" />"]) ++
          (if fl.Symbol2Use = [] then [] else [lit "<sym>" ++ fl.Symbol2Use ++ lit "</sym>"]) ++
          [lit "</wpt>\n"]) := by
  by_cases ht : st.RallyTitle = [] <;> by_cases hm : fl.ExternalMapLink = [] <;>
    by_cases hn : fl.NoMapLink = true <;> by_cases hs : fl.Symbol2Use = [] <;>
    simp [writeWaypoint, xmlsafe, WriteString, ht, hm, hn, hs]

theorem writeWaypoint_RallyTitle {F : Type} (rt : Runtime F) (fl : Flags) (st : State)
    (lat lon : F) (bonusid briefdesc : GoString) :
    (writeWaypoint rt fl st lat lon bonusid briefdesc).RallyTitle = st.RallyTitle := by
  by_cases ht : st.RallyTitle = [] <;> by_cases hm : fl.ExternalMapLink = [] <;>
    by_cases hn : fl.NoMapLink = true <;> by_cases hs : fl.Symbol2Use = [] <;>
    simp [writeWaypoint, xmlsafe, WriteString, ht, hm, hn, hs]

theorem writeWaypoint_Stdout {F : Type} (rt : Runtime F) (fl : Flags) (st : State)
    (lat lon : F) (bonusid briefdesc : GoString) :
    (writeWaypoint rt fl st lat lon bonusid briefdesc).Stdout = st.Stdout := by
  by_cases ht : st.RallyTitle = [] <;> by_cases hm : fl.ExternalMapLink = [] <;>
    by_cases hn : fl.NoMapLink = true <;> by_cases hs : fl.Symbol2Use = [] <;>
    simp [writeWaypoint, xmlsafe, WriteString, ht, hm, hn, hs]

/-- C1. The text `writeWaypoint` appends to the output is, in this order: the `<wpt>` tag
with the rendered latitude and longitude, `<name>` with the escaped id, `-` and the escaped
description, then `<cmt>` with the escaped title if the title is not empty, then `<link>`
with the map URL and the rendered coordinates if the map URL is not empty and `nolink` is
false, then `<sym>` with the symbol as it is if the symbol is not empty, then `</wpt>` and a
newline.  The escaped texts are the results of the calls of `xmlsafe` the function makes. -/
theorem writeWaypoint_text {F : Type} (rt : Runtime F) (fl : Flags) (st : State)
    (lat lon : F) (bonusid briefdesc : GoString) :
    (writeWaypoint rt fl st lat lon bonusid briefdesc).content =
      st.content ++
        (lit "<wpt lat=\"" ++ rt.fmtFloat lat ++ lit "\" lon=\"" ++ rt.fmtFloat lon ++
          lit "\"><name>" ++ xmlsafeWith (rt.order st.ranges) bonusid ++ lit "-" ++
          xmlsafeWith (rt.order (st.ranges + 1)) briefdesc ++ lit "</name>" ++
        (if st.RallyTitle = [] then []
          else lit "<cmt>" ++ xmlsafeWith (rt.order (st.ranges + 2)) st.RallyTitle ++
            lit "</cmt>") ++
        (if fl.ExternalMapLink = [] ∨ fl.NoMapLink = true then []
          else lit "<link href=\"" ++ fl.ExternalMapLink ++ rt.fmtFloat lat ++ lit "," ++
            rt.fmtFloat lon ++ lit "\" />") ++
        (if fl.Symbol2Use = [] then [] else lit "<sym>" ++ fl.Symbol2Use ++ lit "</sym>") ++
        lit "</wpt>\n") := by
  rw [State.content, writeWaypoint_GPXF, State.content]
  by_cases ht : st.RallyTitle = [] <;> by_cases hm : fl.ExternalMapLink = [] <;>
    by_cases hn : fl.NoMapLink = true <;> by_cases hs : fl.Symbol2Use = [] <;>
    simp [ht, hm, hn, hs]

/-- C7. `writeWaypoint` writes a `<cmt>` element exactly when the rally title is not empty.
With an empty title the strings it writes are the `<name>` string, which ends in `</name>`,
and directly after it the link, the symbol and `</wpt>`; with a non-empty title the string
`<cmt>` + escaped title + `</cmt>` stands directly after the `<name>` string, before the
same link, symbol and `</wpt>`. -/
theorem writeWaypoint_cmt {F : Type} (rt : Runtime F) (fl : Flags) (st : State)
    (lat lon : F) (bonusid briefdesc : GoString) :
    ∃ (head : GoString) (tail : List GoString),
      head = lit "<wpt lat=\"" ++ rt.fmtFloat lat ++ lit "\" lon=\"" ++ rt.fmtFloat lon ++
        lit "\"><name>" ++ xmlsafeWith (rt.order st.ranges) bonusid ++ lit "-" ++
        xmlsafeWith (rt.order (st.ranges + 1)) briefdesc ∧
      tail =
        (if fl.ExternalMapLink = [] ∨ fl.NoMapLink = true then []
          else [lit "<link href=\"" ++ fl.ExternalMapLink ++ rt.fmtFloat lat ++ lit "," ++
            rt.fmtFloat lon ++ lit "\" />"]) ++
        (if fl.Symbol2Use = [] then [] else [lit "<sym>" ++ fl.Symbol2Use ++ lit "</sym>"]) ++
        [lit "</wpt>\n"] ∧
      (st.RallyTitle = [] →
        (writeWaypoint rt fl st lat lon bonusid briefdesc).GPXF =
          st.GPXF ++ (head ++ lit "</name>") :: tail) ∧
      (st.RallyTitle ≠ [] →
        (writeWaypoint rt fl st lat lon bonusid briefdesc).GPXF =
          st.GPXF ++ (head ++ lit "</name>") ::
            (lit "<cmt>" ++ xmlsafeWith (rt.order (st.ranges + 2)) st.RallyTitle ++
              lit "</cmt>") :: tail) := by
  refine ⟨_, _, rfl, rfl, fun ht => ?_, fun ht => ?_⟩
  · rw [writeWaypoint_GPXF]
    simp [ht]
  · rw [writeWaypoint_GPXF]
    simp [ht]

/-- The property C7 at the first bonus of a rally titled `Spring Rally` (then with no
title), default flags, coordinates rendered as `51` and `-1`. -/
theorem writeWaypoint_cmt_witness :
    (writeWaypoint (F := Int) ⟨fmtInt, fun _ => ⟨51, -1, false⟩, fun _ => xmlsafeMap, 64⟩
        (defaultFlags (lit "rally.db")) ⟨[], lit "Spring Rally", [], 0⟩ 51 (-1) (lit "B01")
        (lit "Church")).GPXF =
      [lit "<wpt lat=\"51\" lon=\"-1\"><name>B01-Church</name>", lit "<cmt>Spring Rally</cmt>",
        lit "<link href=\"https://www.google.co.uk/maps/search/51,-1\" />",
        lit "<sym>Circle, Green</sym>", lit "</wpt>\n"] ∧
    (writeWaypoint (F := Int) ⟨fmtInt, fun _ => ⟨51, -1, false⟩, fun _ => xmlsafeMap, 64⟩
        (defaultFlags (lit "rally.db")) ⟨[], [], [], 0⟩ 51 (-1) (lit "B01")
        (lit "Church")).GPXF =
      [lit "<wpt lat=\"51\" lon=\"-1\"><name>B01-Church</name>",
        lit "<link href=\"https://www.google.co.uk/maps/search/51,-1\" />",
        lit "<sym>Circle, Green</sym>", lit "</wpt>\n"] := by
  constructor
  · obtain ⟨head, tail, hh, ht, -, h2⟩ :=
      writeWaypoint_cmt (F := Int) ⟨fmtInt, fun _ => ⟨51, -1, false⟩, fun _ => xmlsafeMap, 64⟩
        (defaultFlags (lit "rally.db")) ⟨[], lit "Spring Rally", [], 0⟩ 51 (-1) (lit "B01")
        (lit "Church")
    rw [h2 (by decide), hh, ht]
    decide
  · obtain ⟨head, tail, hh, ht, h1, -⟩ :=
      writeWaypoint_cmt (F := Int) ⟨fmtInt, fun _ => ⟨51, -1, false⟩, fun _ => xmlsafeMap, 64⟩
        (defaultFlags (lit "rally.db")) ⟨[], [], [], 0⟩ 51 (-1) (lit "B01") (lit "Church")
    rw [h1 rfl, hh, ht]
    decide

/-! ## C4 -/

/-- C4. The preprocessing of `generateWaypoints` leaves the degree glyph `°` (bytes `C2 B0`)
in place: `51°30'N` becomes `51°30 N`, not `51 30 N`, and only the four-byte sequence `Â°`
(the glyph encoded twice) is replaced by a space together with the apostrophe. -/
theorem preprocess_keeps_degree_glyph :
    preprocess (lit "51°30'N") = lit "51°30 N" ∧
    preprocess (lit "51°30'N") ≠ lit "51 30 N" ∧
    preprocess (lit "51°30'N 0°10'W") = lit "51°30 N 0°10 W" ∧
    preprocess (lit "51Â°30'N") = lit "51 30 N" := by
  decide

/-! ## `generateWaypoints` -/

theorem wrapInt_of_fits (bits : Nat) (hb : 0 < bits) (x : Int) (h0 : 0 ≤ x)
    (h1 : x < 2 ^ (bits - 1)) : wrapInt bits x = x := by
  obtain ⟨b, rfl⟩ : ∃ b, bits = b + 1 := ⟨bits - 1, by omega⟩
  simp only [Nat.add_sub_cancel] at h1
  unfold wrapInt
  simp only [Nat.add_sub_cancel]
  have hp : (2 : Int) ^ (b + 1) = 2 * 2 ^ b := by rw [pow_succ]; ring
  rw [hp]
  generalize (2 : Int) ^ b = p at h1 ⊢
  rw [Int.emod_eq_of_lt (by omega) (by omega)]
  omega

theorem runLoop_snoc {F : Type} (rt : Runtime F) (fl : Flags) (st : State) (rows : List Row)
    (row : Row) :
    runLoop rt fl st (rows ++ [row]) = loopBody rt fl (runLoop rt fl st rows) row := by
  simp [runLoop, List.foldl_append]

theorem writes_writeWaypoint_append {F : Type} (rt : Runtime F) (fl : Flags) (st : State)
    (lat lon : F) (bonusid briefdesc : GoString) :
    (writeWaypoint rt fl st lat lon bonusid briefdesc).GPXF =
      st.GPXF ++ writes st (writeWaypoint rt fl st lat lon bonusid briefdesc) := by
  unfold writes
  rw [writeWaypoint_GPXF, List.drop_left]

theorem Scan_st (l : Loop) (row : Row) : (Scan l row).st = l.st := by
  unfold Scan
  cases row.BonusID <;> cases row.BriefDesc <;> cases row.Coords <;> rfl

theorem Scan_bonusCount (l : Loop) (row : Row) : (Scan l row).bonusCount = l.bonusCount := by
  unfold Scan
  cases row.BonusID <;> cases row.BriefDesc <;> cases row.Coords <;> rfl

theorem Scan_badCoordCount (l : Loop) (row : Row) :
    (Scan l row).badCoordCount = l.badCoordCount := by
  unfold Scan
  cases row.BonusID <;> cases row.BriefDesc <;> cases row.Coords <;> rfl

/-- On a row without `NULL`, `Scan` stores the three columns. -/
theorem Scan_complete (l : Loop) (row : Row) (h : row.complete) :
    (Scan l row).bonus = row.BonusID.getD [] ∧ (Scan l row).title = row.BriefDesc.getD [] ∧
      (Scan l row).coords = row.Coords.getD [] := by
  obtain ⟨b, t, c⟩ := row
  obtain ⟨h1, h2, h3⟩ := h
  cases b <;> cases t <;> cases c <;> simp_all [Scan]

/-- What the loop writes, whatever the rows: the strings of calls of `writeWaypoint`; the
title and the standard output are left as they are. -/
theorem runLoop_writes {F : Type} (rt : Runtime F) (fl : Flags) (st : State) :
    ∀ rows : List Row,
      (runLoop rt fl st rows).st.RallyTitle = st.RallyTitle ∧
      (runLoop rt fl st rows).st.Stdout = st.Stdout ∧
      ∃ wss : List (List GoString),
        (runLoop rt fl st rows).st.GPXF = st.GPXF ++ wss.flatten ∧
        ∀ cs ∈ wss, ∃ (st' : State) (lat lon : F) (bonusid briefdesc : GoString),
          cs = writes st' (writeWaypoint rt fl st' lat lon bonusid briefdesc) := by
  intro rows
  induction rows using List.reverseRecOn with
  | nil => exact ⟨rfl, rfl, [], by simp [runLoop], by simp⟩
  | append_singleton rows row ih =>
    obtain ⟨ht, ho, wss, hg, hf⟩ := ih
    rw [runLoop_snoc]
    by_cases hr : (rt.Parse (preprocess (Scan (runLoop rt fl st rows) row).coords)).err = true
    · refine ⟨by simp [loopBody, hr, Scan_st, ht], by simp [loopBody, hr, Scan_st, ho], wss,
        by simp [loopBody, hr, Scan_st, hg], hf⟩
    · have hr2 : (rt.Parse (preprocess (Scan (runLoop rt fl st rows) row).coords)).err =
          false := by simpa using hr
      refine ⟨by simp [loopBody, hr2, writeWaypoint_RallyTitle, Scan_st, ht],
        by simp [loopBody, hr2, writeWaypoint_Stdout, Scan_st, ho],
        wss ++ [writes (runLoop rt fl st rows).st
          (writeWaypoint rt fl (runLoop rt fl st rows).st
            (rt.Parse (preprocess (Scan (runLoop rt fl st rows) row).coords)).Lat
            (rt.Parse (preprocess (Scan (runLoop rt fl st rows) row).coords)).Lon
            (Scan (runLoop rt fl st rows) row).bonus (Scan (runLoop rt fl st rows) row).title)],
        ?_, ?_⟩
      · simp only [loopBody, hr2, Bool.false_eq_true, if_false, Scan_st]
        rw [writes_writeWaypoint_append, hg]
        simp
      · intro cs hcs
        rcases List.mem_append.mp hcs with h | h
        · exact hf cs h
        · exact ⟨_, _, _, _, _, List.mem_singleton.mp h⟩

/-- What the loop writes on rows without `NULL`: for each accepted row, in row order, the
strings of one call of `writeWaypoint` with the results of the parser and the id and
description of that row; nothing for a rejected row. -/
theorem runLoop_writes_complete {F : Type} (rt : Runtime F) (fl : Flags) (st : State) :
    ∀ rows : List Row, (∀ row ∈ rows, row.complete) →
      (runLoop rt fl st rows).st.RallyTitle = st.RallyTitle ∧
      ∃ wss : List (List GoString),
        (runLoop rt fl st rows).st.GPXF = st.GPXF ++ wss.flatten ∧
        List.Forall₂
          (fun row cs => ∃ st' : State, st'.RallyTitle = st.RallyTitle ∧
            cs = writes st' (writeWaypoint rt fl st'
              (rt.Parse (preprocess (row.Coords.getD []))).Lat
              (rt.Parse (preprocess (row.Coords.getD []))).Lon
              (row.BonusID.getD []) (row.BriefDesc.getD [])))
          (rows.filter (fun row => !rejects rt row)) wss := by
  intro rows
  induction rows using List.reverseRecOn with
  | nil => intro _; exact ⟨rfl, [], by simp [runLoop], by simp⟩
  | append_singleton rows row ih =>
    intro hall
    obtain ⟨ht, wss, hg, hf⟩ := ih (fun r hr => hall r (by simp [hr]))
    obtain ⟨hb, hd, hc⟩ := Scan_complete (runLoop rt fl st rows) row (hall row (by simp))
    rw [runLoop_snoc]
    by_cases hr : rejects rt row = true
    · have hr2 : (rt.Parse (preprocess (Scan (runLoop rt fl st rows) row).coords)).err =
          true := by rw [hc]; exact hr
      refine ⟨by simp [loopBody, hr2, Scan_st, ht], wss, by simp [loopBody, hr2, Scan_st, hg],
        ?_⟩
      simpa [List.filter_append, hr] using hf
    · have hr3 : rejects rt row = false := by simpa using hr
      have hr2 : (rt.Parse (preprocess (Scan (runLoop rt fl st rows) row).coords)).err =
          false := by rw [hc]; exact hr3
      refine ⟨by simp [loopBody, hr2, writeWaypoint_RallyTitle, Scan_st, ht],
        wss ++ [writes (runLoop rt fl st rows).st
          (writeWaypoint rt fl (runLoop rt fl st rows).st
            (rt.Parse (preprocess (row.Coords.getD []))).Lat
            (rt.Parse (preprocess (row.Coords.getD []))).Lon
            (row.BonusID.getD []) (row.BriefDesc.getD []))], ?_, ?_⟩
      · have hr4 : (rt.Parse (preprocess (row.Coords.getD []))).err = false := hr3
        simp only [loopBody, hc, hb, hd, hr4, Bool.false_eq_true, if_false, Scan_st]
        rw [writes_writeWaypoint_append, hg]
        simp
      · simp only [List.filter_append, List.filter_cons, hr3, Bool.not_false, if_true,
          List.filter_nil]
        exact List.rel_append hf (List.Forall₂.cons ⟨_, ht, rfl⟩ List.Forall₂.nil)

/-- The counter `bonusCount`, as long as the number of rows fits the type `int`. -/
theorem runLoop_bonusCount {F : Type} (rt : Runtime F) (fl : Flags) (st : State)
    (hb : 0 < rt.intBits) :
    ∀ rows : List Row, (rows.length : Int) < 2 ^ (rt.intBits - 1) →
      (runLoop rt fl st rows).bonusCount = rows.length := by
  intro rows
  induction rows using List.reverseRecOn with
  | nil => intro _; rfl
  | append_singleton rows row ih =>
    intro hlen
    simp only [List.length_append, List.length_singleton, Nat.cast_add, Nat.cast_one] at hlen
    have hc := ih (by omega)
    have h1 : wrapInt rt.intBits ((rows.length : Int) + 1) = rows.length + 1 :=
      wrapInt_of_fits _ hb _ (by omega) hlen
    rw [runLoop_snoc]
    by_cases hr : (rt.Parse (preprocess (Scan (runLoop rt fl st rows) row).coords)).err = true
    · simp [loopBody, hr, Scan_bonusCount, hc, h1]
    · have hr2 : (rt.Parse (preprocess (Scan (runLoop rt fl st rows) row).coords)).err =
          false := by simpa using hr
      simp [loopBody, hr2, Scan_bonusCount, hc, h1]

/-- The counter `badCoordCount` on rows without `NULL`, as long as the number of rows fits
the type `int`. -/
theorem runLoop_badCoordCount_complete {F : Type} (rt : Runtime F) (fl : Flags) (st : State)
    (hb : 0 < rt.intBits) :
    ∀ rows : List Row, (rows.length : Int) < 2 ^ (rt.intBits - 1) →
      (∀ row ∈ rows, row.complete) →
      (runLoop rt fl st rows).badCoordCount = (rows.filter (rejects rt)).length := by
  intro rows
  induction rows using List.reverseRecOn with
  | nil => intro _ _; rfl
  | append_singleton rows row ih =>
    intro hlen hall
    simp only [List.length_append, List.length_singleton, Nat.cast_add, Nat.cast_one] at hlen
    have hbad := ih (by omega) (fun r hr => hall r (by simp [hr]))
    obtain ⟨-, -, hc⟩ := Scan_complete (runLoop rt fl st rows) row (hall row (by simp))
    have hle : (rows.filter (rejects rt)).length ≤ rows.length := List.length_filter_le _ _
    have h2 : wrapInt rt.intBits (((rows.filter (rejects rt)).length : Int) + 1) =
        (rows.filter (rejects rt)).length + 1 :=
      wrapInt_of_fits _ hb _ (by omega) (by omega)
    rw [runLoop_snoc]
    by_cases hr : rejects rt row = true
    · have hr2 : (rt.Parse (preprocess (Scan (runLoop rt fl st rows) row).coords)).err =
          true := by rw [hc]; exact hr
      simp [loopBody, hr2, Scan_badCoordCount, hbad, h2, List.filter_append, hr]
    · have hr3 : rejects rt row = false := by simpa using hr
      have hr2 : (rt.Parse (preprocess (Scan (runLoop rt fl st rows) row).coords)).err =
          false := by rw [hc]; exact hr3
      simp [loopBody, hr2, Scan_badCoordCount, hbad, List.filter_append, hr3]

/-- One pass of `generateWaypoints` over rows none of whose columns is `NULL`, their number
fitting the type `int`: `bonusCount` ends as the number of rows and `badCoordCount` as the
number of rows whose preprocessed coordinates the parser rejects; the text written is the
concatenation of `bonusCount - badCoordCount` outputs of `writeWaypoint`, one for each
accepted row, in row order, with the first result of the parser as latitude and the second as
longitude; the summary printed gives the two counters. -/
theorem generateWaypoints_complete_rows {F : Type} (rt : Runtime F) (fl : Flags) (st : State)
    (rows : List Row) (hb : 0 < rt.intBits) (hfit : (rows.length : Int) < 2 ^ (rt.intBits - 1))
    (hall : ∀ row ∈ rows, row.complete) :
    (runLoop rt fl st rows).bonusCount = rows.length ∧
    (runLoop rt fl st rows).badCoordCount = (rows.filter (rejects rt)).length ∧
    (∃ ws : List GoString,
      (generateWaypoints rt fl st (.ok rows)).content = st.content ++ ws.flatten ∧
      (ws.length : Int) =
        (runLoop rt fl st rows).bonusCount - (runLoop rt fl st rows).badCoordCount ∧
      List.Forall₂
        (fun row w => ∃ st' : State, st'.RallyTitle = st.RallyTitle ∧
          w = written st' (writeWaypoint rt fl st'
            (rt.Parse (preprocess (row.Coords.getD []))).Lat
            (rt.Parse (preprocess (row.Coords.getD []))).Lon
            (row.BonusID.getD []) (row.BriefDesc.getD [])))
        (rows.filter (fun row => !rejects rt row)) ws) ∧
    (generateWaypoints rt fl st (.ok rows)).Stdout =
      st.Stdout ++ (fmtInt rows.length ++ lit " bonuses read including " ++
        fmtInt (rows.filter (rejects rt)).length ++ lit " with bad coordinates" ++ lit "\n\n") := by
  have hc := runLoop_bonusCount rt fl st hb rows hfit
  have hbad := runLoop_badCoordCount_complete rt fl st hb rows hfit hall
  obtain ⟨-, ho, -⟩ := runLoop_writes rt fl st rows
  obtain ⟨-, wss, hg, hf⟩ := runLoop_writes_complete rt fl st rows hall
  refine ⟨hc, hbad, ⟨wss.map List.flatten, ?_, ?_, ?_⟩, ?_⟩
  · simp [generateWaypoints, Print, State.content, hg, List.flatten_flatten]
  · have hlen := hf.length_eq
    have hsplit := List.length_eq_length_filter_add (l := rows) (rejects rt)
    rw [hc, hbad, List.length_map, ← hlen]
    omega
  · rw [List.forall₂_map_right_iff]
    refine hf.imp ?_
    rintro row cs ⟨st', h1, h2⟩
    exact ⟨st', h1, by rw [h2]; rfl⟩
  · have hsum : lit " with bad coordinates\n\n" = lit " with bad coordinates" ++ lit "\n\n" := by
      decide
    simp [generateWaypoints, Print, summary, ho, hc, hbad, hsum]

/-! ## C3 -/

/-- C3. On the rows `B01` (`Church`, `51.5,-0.1`) and `B02` (description `NULL`, coordinates
`bogus`), with a parser that rejects `bogus`, the pass does not count `B02` as bad and does
not skip it: `rows.Scan` stops at the `NULL` column, its error is dropped, and `title` and
`coords` keep the values of `B01`, so a second `<wpt>` named `B02-Church` with the
coordinates of `B01` is written and the summary reports no bad coordinates. -/
theorem generateWaypoints_null_column :
    (rejects (F := Int)
      ⟨fmtInt, fun s => if s = lit "bogus" then ⟨0, 0, true⟩ else ⟨51, -1, false⟩,
        fun _ => xmlsafeMap, 64⟩ ⟨some (lit "B02"), none, some (lit "bogus")⟩) = true ∧
    (runLoop (F := Int)
      ⟨fmtInt, fun s => if s = lit "bogus" then ⟨0, 0, true⟩ else ⟨51, -1, false⟩,
        fun _ => xmlsafeMap, 64⟩ (defaultFlags (lit "rally.db")) ⟨[], [], [], 0⟩
      [⟨some (lit "B01"), some (lit "Church"), some (lit "51.5,-0.1")⟩,
        ⟨some (lit "B02"), none, some (lit "bogus")⟩]).badCoordCount = 0 ∧
    (generateWaypoints (F := Int)
      ⟨fmtInt, fun s => if s = lit "bogus" then ⟨0, 0, true⟩ else ⟨51, -1, false⟩,
        fun _ => xmlsafeMap, 64⟩ (defaultFlags (lit "rally.db")) ⟨[], [], [], 0⟩
      (.ok [⟨some (lit "B01"), some (lit "Church"), some (lit "51.5,-0.1")⟩,
        ⟨some (lit "B02"), none, some (lit "bogus")⟩])).Stdout =
      lit "2 bonuses read including 0 with bad coordinates\n\n" ∧
    (generateWaypoints (F := Int)
      ⟨fmtInt, fun s => if s = lit "bogus" then ⟨0, 0, true⟩ else ⟨51, -1, false⟩,
        fun _ => xmlsafeMap, 64⟩ (defaultFlags (lit "rally.db")) ⟨[], [], [], 0⟩
      (.ok [⟨some (lit "B01"), some (lit "Church"), some (lit "51.5,-0.1")⟩,
        ⟨some (lit "B02"), none, some (lit "bogus")⟩])).GPXF =
      [lit "<wpt lat=\"51\" lon=\"-1\"><name>B01-Church</name>",
        lit "<link href=\"https://www.google.co.uk/maps/search/51,-1\" />",
        lit "<sym>Circle, Green</sym>", lit "</wpt>\n",
        lit "<wpt lat=\"51\" lon=\"-1\"><name>B02-Church</name>",
        lit "<link href=\"https://www.google.co.uk/maps/search/51,-1\" />",
        lit "<sym>Circle, Green</sym>", lit "</wpt>\n"] := by
  refine ⟨by decide, by decide, by decide, by decide⟩

/-! ## `main` -/

theorem generateWaypoints_RallyTitle {F : Type} (rt : Runtime F) (fl : Flags) (st : State)
    (query : Except GoString (List Row)) :
    (generateWaypoints rt fl st query).RallyTitle = st.RallyTitle := by
  cases query with
  | error err => rfl
  | ok rows => exact (runLoop_writes rt fl st rows).1

/-- A run that reaches the creation of the file: it wrote the header to the new file, called
`generateWaypoints` and then `completeGPX`. -/
theorem main_completed {F : Type} (rt : Runtime F) (fl : Flags) (env : Env)
    (h : (main rt fl env).1 = .completed) :
    ∃ st1 : State, st1.GPXF = [gpxheader] ∧
      (main rt fl env).2 = completeGPX (generateWaypoints rt fl st1 env.bonusQuery) := by
  unfold main at h ⊢
  by_cases h1 : fl.SourceDBName = []
  · simp [h1] at h
  by_cases h2 : env.dbExists = true
  swap
  · simp [h1, h2] at h
  by_cases h3 : env.openErr.isSome = true
  · simp [h1, h2, h3] at h
  cases h4 : env.titleQuery with
  | error err => simp [h1, h2, h3, h4] at h
  | ok rows =>
    by_cases h5 : fl.OutputGPX = []
    · simp [h1, h2, h3, h4, h5] at h
    · simp only [h1, h2, h3, h5, if_false, not_true_eq_false, Bool.false_eq_true]
      exact ⟨_, rfl, rfl⟩

/-- The title `main` reads, in a run that gets to the query for it. -/
theorem main_RallyTitle {F : Type} (rt : Runtime F) (fl : Flags) (env : Env)
    (h1 : fl.SourceDBName ≠ []) (h2 : env.dbExists = true) (h3 : env.openErr = none)
    (rows : List GoString) (h4 : env.titleQuery = .ok rows) :
    (main rt fl env).2.RallyTitle = rows.headD [] := by
  unfold main
  by_cases h5 : fl.OutputGPX = []
  · cases rows <;> simp [h1, h2, h3, h4, h5, Print]
  · cases rows <;>
      simp [h1, h2, h3, h4, h5, Print, completeGPX, WriteString, generateWaypoints_RallyTitle]

theorem main_of_title_error {F : Type} (rt : Runtime F) (fl : Flags) (env : Env)
    (h1 : fl.SourceDBName ≠ []) (h2 : env.dbExists = true) (h3 : env.openErr = none)
    (err : GoString) (h4 : env.titleQuery = .error err) :
    (main rt fl env).1 = .returnedEarly ∧ (main rt fl env).2.GPXF = [] ∧
      (main rt fl env).2.Stdout = banner ++ (lit "ERROR! " ++
        lit "SELECT RallyTitle FROM rallyparams" ++ lit "\nproduced " ++ err ++ lit "\n") := by
  unfold main
  simp [h1, h2, h3, h4, Print, titleSql]

/-- C8 as the code has it. A failure of the rally-title query ends the run: with the
database named, present and opened, when the query returns an error the program prints
`ERROR!`, the query and the error, and returns before the output file is created, so that
nothing is written to it; when the query succeeds with no row the title is the empty string,
and with a row it is the first value of that row. -/
theorem main_title_query {F : Type} (rt : Runtime F) (fl : Flags) (env : Env)
    (h1 : fl.SourceDBName ≠ []) (h2 : env.dbExists = true) (h3 : env.openErr = none) :
    (∀ err : GoString, env.titleQuery = .error err →
      (main rt fl env).1 = .returnedEarly ∧ (main rt fl env).2.GPXF = [] ∧
      (main rt fl env).2.Stdout = banner ++ (lit "ERROR! " ++ lit "SELECT RallyTitle FROM rallyparams" ++
        lit "\nproduced " ++ err ++ lit "\n")) ∧
    (env.titleQuery = .ok [] → (main rt fl env).2.RallyTitle = []) ∧
    (∀ (title : GoString) (rest : List GoString), env.titleQuery = .ok (title :: rest) →
      (main rt fl env).2.RallyTitle = title) := by
  refine ⟨fun err h4 => ?_, fun h4 => ?_, fun title rest h4 => ?_⟩
  · exact main_of_title_error rt fl env h1 h2 h3 err h4
  · rw [main_RallyTitle rt fl env h1 h2 h3 _ h4]
    rfl
  · rw [main_RallyTitle rt fl env h1 h2 h3 _ h4]
    rfl

/-- The property C8 (amended) on a database without the table `rallyparams`. -/
theorem main_title_query_witness :
    (main (F := Int) ⟨fmtInt, fun _ => ⟨51, -1, false⟩, fun _ => xmlsafeMap, 64⟩
      (defaultFlags (lit "rally.db"))
      ⟨true, none, .error (lit "no such table: rallyparams"),
        .ok [⟨some (lit "B01"), some (lit "Church"), some (lit "51.5,-0.1")⟩]⟩).2.Stdout =
      banner ++ lit "ERROR! SELECT RallyTitle FROM rallyparams\nproduced no such table: rallyparams\n" := by
  have h := (main_title_query (F := Int) ⟨fmtInt, fun _ => ⟨51, -1, false⟩, fun _ => xmlsafeMap, 64⟩
    (defaultFlags (lit "rally.db"))
    ⟨true, none, .error (lit "no such table: rallyparams"),
      .ok [⟨some (lit "B01"), some (lit "Church"), some (lit "51.5,-0.1")⟩]⟩ (by decide) rfl rfl).1
    (lit "no such table: rallyparams") rfl
  rw [h.2.2]
  congr 1

/-- C8 as the claim has it fails: on a database without the table `rallyparams` the run
does not go on to the output file, and nothing is written, the header included. -/
theorem main_title_query_error_stops :
    (main (F := Int) ⟨fmtInt, fun _ => ⟨51, -1, false⟩, fun _ => xmlsafeMap, 64⟩
      (defaultFlags (lit "rally.db"))
      ⟨true, none, .error (lit "no such table: rallyparams"),
        .ok [⟨some (lit "B01"), some (lit "Church"), some (lit "51.5,-0.1")⟩]⟩).1 ≠ .completed ∧
    (main (F := Int) ⟨fmtInt, fun _ => ⟨51, -1, false⟩, fun _ => xmlsafeMap, 64⟩
      (defaultFlags (lit "rally.db"))
      ⟨true, none, .error (lit "no such table: rallyparams"),
        .ok [⟨some (lit "B01"), some (lit "Church"), some (lit "51.5,-0.1")⟩]⟩).2.content = [] := by
  have h := main_of_title_error (F := Int)
    ⟨fmtInt, fun _ => ⟨51, -1, false⟩, fun _ => xmlsafeMap, 64⟩ (defaultFlags (lit "rally.db"))
    ⟨true, none, .error (lit "no such table: rallyparams"),
      .ok [⟨some (lit "B01"), some (lit "Church"), some (lit "51.5,-0.1")⟩]⟩ (by decide) rfl rfl
    (lit "no such table: rallyparams") rfl
  refine ⟨?_, ?_⟩
  · rw [h.1]
    decide
  · rw [State.content, h.2.1]
    rfl

/-! ## C9 -/

theorem gpxheader_take : gpxheader.take 3 = [60, 63, 120] := by decide

/-- The strings `writeWaypoint` writes start with `<wp`, `<cm`, `<li`, `<sy` or `</w`. -/
theorem writes_writeWaypoint_take {F : Type} (rt : Runtime F) (fl : Flags) (st : State)
    (lat lon : F) (bonusid briefdesc : GoString) :
    ∀ c ∈ writes st (writeWaypoint rt fl st lat lon bonusid briefdesc),
      c.take 3 ∈ [[60, 119, 112], [60, 99, 109], [60, 108, 105], [60, 115, 121],
        [60, 47, 119]] := by
  have e1 : lit "<wpt lat=\"" = [60, 119, 112] ++ lit "t lat=\"" := by decide
  have e2 : lit "<cmt>" = [60, 99, 109] ++ lit "t>" := by decide
  have e3 : lit "<link href=\"" = [60, 108, 105] ++ lit "nk href=\"" := by decide
  have e4 : lit "<sym>" = [60, 115, 121] ++ lit "m>" := by decide
  have e5 : lit "</wpt>\n" = [60, 47, 119] ++ lit "pt>\n" := by decide
  intro c hc
  unfold writes at hc
  rw [writeWaypoint_GPXF, List.drop_left, e1, e2, e3, e4, e5] at hc
  simp only [List.mem_append, List.mem_singleton] at hc
  rcases hc with (((hc | hc) | hc) | hc) | hc
  · subst hc; simp
  · split at hc
    · simp at hc
    · simp only [List.mem_singleton] at hc; subst hc; simp
  · split at hc
    · simp at hc
    · simp only [List.mem_singleton] at hc; subst hc; simp
  · split at hc
    · simp at hc
    · simp only [List.mem_singleton] at hc; subst hc; simp
  · subst hc; simp

theorem writes_writeWaypoint_ne {F : Type} (rt : Runtime F) (fl : Flags) (st : State)
    (lat lon : F) (bonusid briefdesc : GoString) :
    ∀ c ∈ writes st (writeWaypoint rt fl st lat lon bonusid briefdesc),
      c ≠ gpxheader ∧ c ≠ lit "</gpx>\n" := by
  intro c hc
  have h := writes_writeWaypoint_take rt fl st lat lon bonusid briefdesc c hc
  constructor
  · intro e
    rw [e, gpxheader_take] at h
    revert h
    decide
  · intro e
    rw [e] at h
    revert h
    decide

/-- The strings `generateWaypoints` writes: those of calls of `writeWaypoint`. -/
theorem generateWaypoints_GPXF {F : Type} (rt : Runtime F) (fl : Flags) (st : State)
    (query : Except GoString (List Row)) :
    ∃ wss : List (List GoString),
      (generateWaypoints rt fl st query).GPXF = st.GPXF ++ wss.flatten ∧
      (∀ cs ∈ wss, ∃ (st' : State) (lat lon : F) (bonusid briefdesc : GoString),
        cs = writes st' (writeWaypoint rt fl st' lat lon bonusid briefdesc)) ∧
      (∀ err : GoString, query = .error err → wss = []) := by
  cases query with
  | error err => exact ⟨[], by simp [generateWaypoints, Print], by simp, fun _ _ => rfl⟩
  | ok rows =>
    obtain ⟨-, -, wss, hg, hf⟩ := runLoop_writes rt fl st rows
    exact ⟨wss, by simp [generateWaypoints, Print, hg], hf, by simp⟩

/-- C9. In every run of `main` that reaches the creation of the output file, the content
written to it is `gpxheader`, then the concatenation of zero or more outputs of
`writeWaypoint`, then `</gpx>` and a newline; the header is the first string written and is
written once, the closing tag is the last string written and is written once; when the bonus
query fails the content is the header followed directly by the closing tag. -/
theorem main_file_content {F : Type} (rt : Runtime F) (fl : Flags) (env : Env)
    (h : (main rt fl env).1 = .completed) :
    (∃ ws : List GoString,
      (main rt fl env).2.content = gpxheader ++ ws.flatten ++ lit "</gpx>\n" ∧
      ∀ w ∈ ws, ∃ (st : State) (lat lon : F) (bonusid briefdesc : GoString),
        w = written st (writeWaypoint rt fl st lat lon bonusid briefdesc)) ∧
    (main rt fl env).2.GPXF.head? = some gpxheader ∧
    (main rt fl env).2.GPXF.count gpxheader = 1 ∧
    (main rt fl env).2.GPXF.getLast? = some (lit "</gpx>\n") ∧
    (main rt fl env).2.GPXF.count (lit "</gpx>\n") = 1 ∧
    (∀ err : GoString, env.bonusQuery = .error err →
      (main rt fl env).2.content = gpxheader ++ lit "</gpx>\n") := by
  obtain ⟨st1, hst1, hmain⟩ := main_completed rt fl env h
  obtain ⟨wss, hg, hw, herr⟩ := generateWaypoints_GPXF rt fl st1 env.bonusQuery
  have hG : (main rt fl env).2.GPXF = [gpxheader] ++ wss.flatten ++ [lit "</gpx>\n"] := by
    rw [hmain]
    simp [completeGPX, WriteString, hg, hst1]
  have hne : ∀ c ∈ wss.flatten, c ≠ gpxheader ∧ c ≠ lit "</gpx>\n" := by
    intro c hc
    obtain ⟨cs, hcs, hc2⟩ := List.mem_flatten.mp hc
    obtain ⟨st', lat, lon, b, d, e⟩ := hw cs hcs
    rw [e] at hc2
    exact writes_writeWaypoint_ne rt fl st' lat lon b d c hc2
  have hhf : gpxheader ≠ lit "</gpx>\n" := by
    intro e
    have := congrArg (List.take 3) e
    rw [gpxheader_take] at this
    revert this
    decide
  have hc1 : wss.flatten.count gpxheader = 0 :=
    List.count_eq_zero.mpr (fun hm => (hne _ hm).1 rfl)
  have hc2 : wss.flatten.count (lit "</gpx>\n") = 0 :=
    List.count_eq_zero.mpr (fun hm => (hne _ hm).2 rfl)
  refine ⟨⟨wss.map List.flatten, ?_, ?_⟩, ?_, ?_, ?_, ?_, ?_⟩
  · rw [State.content, hG]
    simp [List.flatten_flatten]
  · intro w hw2
    obtain ⟨cs, hcs, rfl⟩ := List.mem_map.mp hw2
    obtain ⟨st', lat, lon, b, d, e⟩ := hw cs hcs
    exact ⟨st', lat, lon, b, d, by rw [e]; rfl⟩
  · rw [hG]
    rfl
  · rw [hG, List.count_append, List.count_append, hc1]
    simp [List.count_cons, hhf]
  · rw [hG, List.getLast?_concat]
  · rw [hG, List.count_append, List.count_append, hc2]
    simp [List.count_cons, hhf]
  · intro err he
    rw [State.content, hG, herr err he]
    simp

/-! ## C6 -/

theorem linkPat_eq : lit "<link" = [60, 108, 105, 110, 107] := by decide

theorem linkStep_le (k c : Nat) (hk : k ≤ 5) : linkStep k c ≤ 5 := by
  unfold linkStep
  split_ifs <;> omega

theorem linkRun_cons (k c : Nat) (s : GoString) :
    linkRun k (c :: s) = linkRun (linkStep k c) s := rfl

theorem linkRun_append (k : Nat) (s t : GoString) :
    linkRun k (s ++ t) = linkRun (linkRun k s) t := by
  simp [linkRun, List.foldl_append]

theorem linkRun_le (s : GoString) : ∀ k : Nat, k ≤ 5 → linkRun k s ≤ 5 := by
  induction s with
  | nil => intro k hk; exact hk
  | cons c s ih => intro k hk; exact ih _ (linkStep_le k c hk)

theorem linkRun_five (s : GoString) : linkRun 5 s = 5 := by
  induction s with
  | nil => rfl
  | cons c s ih => rw [linkRun_cons]; exact ih

theorem linkRun_pattern : ∀ k : Nat, k ≤ 5 → linkRun k (lit "<link") = 5 := by
  decide

/-- The search finds every occurrence. -/
theorem linkRun_of_occurrence {s : GoString} (h : lit "<link" <:+: s) : linkRun 0 s = 5 := by
  obtain ⟨pre, post, rfl⟩ := h
  rw [linkRun_append, linkRun_append, linkRun_pattern _ (linkRun_le pre 0 (by omega)),
    linkRun_five]

/-- The search finds occurrences only. -/
theorem infix_of_linkRun (s : GoString) : ∀ k : Nat, k ≤ 5 → linkRun k s = 5 →
    ((lit "<link").drop k <+: s ∨ lit "<link" <:+: s) := by
  rw [linkPat_eq]
  induction s with
  | nil =>
    intro k _ h
    have hk : k = 5 := h
    subst hk
    exact Or.inl (List.prefix_refl _)
  | cons c s ih =>
    intro k hk h
    rw [linkRun_cons] at h
    rcases ih _ (linkStep_le k c hk) h with h1 | h1
    · unfold linkStep at h1
      rw [linkPat_eq] at h1
      interval_cases k
      · simp only [show ¬ 5 ≤ 0 by omega, if_false, List.getD_cons_zero] at h1
        split_ifs at h1 with hc
        · subst hc
          exact Or.inl (by simpa using h1)
        · exact Or.inr (List.infix_cons h1.isInfix)
      · simp only [show ¬ 5 ≤ 1 by omega, if_false, List.getD_cons_succ,
          List.getD_cons_zero] at h1
        split_ifs at h1 with hc hc2
        · subst hc
          exact Or.inl (by simpa using h1)
        · subst hc2
          exact Or.inr (List.IsPrefix.isInfix (by simpa using h1))
        · exact Or.inr (List.infix_cons h1.isInfix)
      · simp only [show ¬ 5 ≤ 2 by omega, if_false, List.getD_cons_succ,
          List.getD_cons_zero] at h1
        split_ifs at h1 with hc hc2
        · subst hc
          exact Or.inl (by simpa using h1)
        · subst hc2
          exact Or.inr (List.IsPrefix.isInfix (by simpa using h1))
        · exact Or.inr (List.infix_cons h1.isInfix)
      · simp only [show ¬ 5 ≤ 3 by omega, if_false, List.getD_cons_succ,
          List.getD_cons_zero] at h1
        split_ifs at h1 with hc hc2
        · subst hc
          exact Or.inl (by simpa using h1)
        · subst hc2
          exact Or.inr (List.IsPrefix.isInfix (by simpa using h1))
        · exact Or.inr (List.infix_cons h1.isInfix)
      · simp only [show ¬ 5 ≤ 4 by omega, if_false, List.getD_cons_succ,
          List.getD_cons_zero] at h1
        split_ifs at h1 with hc hc2
        · subst hc
          exact Or.inl (by simp)
        · subst hc2
          exact Or.inr (List.IsPrefix.isInfix (by simpa using h1))
        · exact Or.inr (List.infix_cons h1.isInfix)
      · exact Or.inl (by simp)
    · exact Or.inr (List.infix_cons h1)

theorem linkRun_lt_five {s : GoString} (h : ¬ lit "<link" <:+: s) :
    linkRun 0 s < 5 := by
  have hle := linkRun_le s 0 (by omega)
  rcases Nat.lt_or_ge (linkRun 0 s) 5 with h1 | h1
  · exact h1
  · exfalso
    rcases infix_of_linkRun s 0 (by omega) (by omega) with h2 | h2
    · exact h (by simpa using h2.isInfix)
    · exact h h2

theorem linkRun_zero_of_no_lt (s : GoString) (h : 60 ∉ s) : linkRun 0 s = 0 := by
  induction s with
  | nil => rfl
  | cons c s ih =>
    have hc : ¬ c = 60 := fun e => h (by simp [e])
    have hs : 60 ∉ s := fun e => h (by simp [e])
    rw [linkRun_cons]
    have : linkStep 0 c = 0 := by
      simp [linkStep, linkPat_eq, hc]
    rw [this]
    exact ih hs

theorem linkRun_xmlsafeWith {order : List (GoString × GoString)} (h : IsIterationOrder order)
    (s : GoString) : linkRun 0 (xmlsafeWith order s) = 0 :=
  linkRun_zero_of_no_lt _ (special_not_mem_xmlsafe h s (by simp))

theorem written_of_link_off {F : Type} (rt : Runtime F) (fl : Flags) (st : State)
    (lat lon : F) (bonusid briefdesc : GoString)
    (hoff : fl.NoMapLink = true ∨ fl.ExternalMapLink = []) :
    written st (writeWaypoint rt fl st lat lon bonusid briefdesc) =
      lit "<wpt lat=\"" ++ rt.fmtFloat lat ++ lit "\" lon=\"" ++ rt.fmtFloat lon ++
        lit "\"><name>" ++ xmlsafeWith (rt.order st.ranges) bonusid ++ lit "-" ++
        xmlsafeWith (rt.order (st.ranges + 1)) briefdesc ++ lit "</name>" ++
      (if st.RallyTitle = [] then []
        else lit "<cmt>" ++ xmlsafeWith (rt.order (st.ranges + 2)) st.RallyTitle ++
          lit "</cmt>") ++
      (if fl.Symbol2Use = [] then [] else lit "<sym>" ++ fl.Symbol2Use ++ lit "</sym>") ++
      lit "</wpt>\n" := by
  have hl : (fl.ExternalMapLink = [] ∨ fl.NoMapLink = true) := hoff.symm
  unfold written writes
  rw [writeWaypoint_GPXF, List.drop_left, if_pos hl]
  by_cases ht : st.RallyTitle = [] <;> by_cases hs : fl.Symbol2Use = [] <;> simp [ht, hs]

/-- C6 as the code has it. When `nolink` is true, or when the map base URL is the empty
string, the text `writeWaypoint` writes has no occurrence of `<link`, for every bonus id,
description and rally title, every latitude and longitude whose rendering has no `<` (as the
rendering of a `float64` has none), and every symbol that does not itself contain `<link`. -/
theorem writeWaypoint_no_link {F : Type} (rt : Runtime F) (fl : Flags) (st : State)
    (lat lon : F) (bonusid briefdesc : GoString)
    (hoff : fl.NoMapLink = true ∨ fl.ExternalMapLink = [])
    (hord : ∀ n : Nat, IsIterationOrder (rt.order n))
    (hlat : ∀ c ∈ lit "<", c ∉ rt.fmtFloat lat) (hlon : ∀ c ∈ lit "<", c ∉ rt.fmtFloat lon)
    (hsym : ¬ lit "<link" <:+: fl.Symbol2Use) :
    ¬ lit "<link" <:+: written st (writeWaypoint rt fl st lat lon bonusid briefdesc) := by
  intro hinf
  have hrun := linkRun_of_occurrence hinf
  have hlt : lit "<" = [60] := by decide
  rw [hlt] at hlat hlon
  have f1 : linkRun 0 (rt.fmtFloat lat) = 0 := linkRun_zero_of_no_lt _ (hlat 60 (by simp))
  have f2 : linkRun 0 (rt.fmtFloat lon) = 0 := linkRun_zero_of_no_lt _ (hlon 60 (by simp))
  have x1 := linkRun_xmlsafeWith (hord st.ranges) bonusid
  have x2 := linkRun_xmlsafeWith (hord (st.ranges + 1)) briefdesc
  have x3 := linkRun_xmlsafeWith (hord (st.ranges + 2)) st.RallyTitle
  have l1 : linkRun 0 (lit "<wpt lat=\"") = 0 := by decide
  have l2 : linkRun 0 (lit "\" lon=\"") = 0 := by decide
  have l3 : linkRun 0 (lit "\"><name>") = 0 := by decide
  have l4 : linkRun 0 (lit "-") = 0 := by decide
  have l5 : linkRun 0 (lit "</name>") = 0 := by decide
  have l6 : linkRun 0 (lit "<cmt>") = 0 := by decide
  have l7 : linkRun 0 (lit "</cmt>") = 0 := by decide
  have l8 : linkRun 0 (lit "<sym>") = 0 := by decide
  have l9 : linkRun 0 (lit "</wpt>\n") = 0 := by decide
  have hclose : ∀ k : Nat, k < 5 → linkRun k (lit "</sym>") = 0 := by decide
  have s1 : linkRun (linkRun 0 fl.Symbol2Use) (lit "</sym>") = 0 :=
    hclose _ (linkRun_lt_five hsym)
  rw [written_of_link_off rt fl st lat lon bonusid briefdesc hoff] at hrun
  by_cases ht : st.RallyTitle = [] <;> by_cases hs : fl.Symbol2Use = [] <;>
    simp [ht, hs, linkRun_append, f1, f2, x1, x2, x3, l1, l2, l3, l4, l5, l6, l7, l8, l9,
      s1] at hrun

/-- The property C6 (amended) with `-nolink`, the default symbol and the title
`Spring Rally`. -/
theorem writeWaypoint_no_link_witness :
    ¬ lit "<link" <:+: written ⟨[], lit "Spring Rally", [], 0⟩
      (writeWaypoint (F := Int) ⟨fmtInt, fun _ => ⟨51, -1, false⟩, fun _ => xmlsafeMap, 64⟩
        ⟨lit "rally.db", lit "https://www.google.co.uk/maps/search/", true, lit "Circle, Green",
          lit "waypoints.gpx"⟩
        ⟨[], lit "Spring Rally", [], 0⟩ 51 (-1) (lit "B<1") (lit "Church")) :=
  writeWaypoint_no_link (F := Int) ⟨fmtInt, fun _ => ⟨51, -1, false⟩, fun _ => xmlsafeMap, 64⟩
    ⟨lit "rally.db", lit "https://www.google.co.uk/maps/search/", true, lit "Circle, Green",
      lit "waypoints.gpx"⟩
    ⟨[], lit "Spring Rally", [], 0⟩ 51 (-1) (lit "B<1") (lit "Church")
    (Or.inl rfl) (fun _ => List.Perm.refl _) (by decide) (by decide) (by decide)

/-- C6 as the claim has it fails: with `-nolink` and the symbol `<link`, which is written
as it is, the text of the waypoint contains `<link`. -/
theorem writeWaypoint_link_from_symbol :
    lit "<link" <:+: written ⟨[], [], [], 0⟩
      (writeWaypoint (F := Int) ⟨fmtInt, fun _ => ⟨51, -1, false⟩, fun _ => xmlsafeMap, 64⟩
        ⟨lit "rally.db", lit "https://www.google.co.uk/maps/search/", true, lit "<link",
          lit "waypoints.gpx"⟩
        ⟨[], [], [], 0⟩ 51 (-1) (lit "B01") (lit "Church")) := by
  rw [written_of_link_off _ _ _ _ _ _ _ (Or.inl rfl)]
  exact ⟨lit "<wpt lat=\"51\" lon=\"-1\"><name>B01-Church</name><sym>", lit "</sym></wpt>\n",
    by decide⟩

/-- The property C9 on a run whose bonus query fails (no table `bonuses`): the file holds
the header and the closing tag, each written once. -/
theorem main_file_content_witness :
    (main (F := Int) ⟨fmtInt, fun _ => ⟨51, -1, false⟩, fun _ => xmlsafeMap, 64⟩
      (defaultFlags (lit "rally.db"))
      ⟨true, none, .ok [lit "Spring Rally"], .error (lit "no such table: bonuses")⟩).1 =
      .completed ∧
    (main (F := Int) ⟨fmtInt, fun _ => ⟨51, -1, false⟩, fun _ => xmlsafeMap, 64⟩
      (defaultFlags (lit "rally.db"))
      ⟨true, none, .ok [lit "Spring Rally"], .error (lit "no such table: bonuses")⟩).2.content =
      gpxheader ++ lit "</gpx>\n" ∧
    (main (F := Int) ⟨fmtInt, fun _ => ⟨51, -1, false⟩, fun _ => xmlsafeMap, 64⟩
      (defaultFlags (lit "rally.db"))
      ⟨true, none, .ok [lit "Spring Rally"],
        .error (lit "no such table: bonuses")⟩).2.GPXF.count gpxheader = 1 := by
  have hc : (main (F := Int) ⟨fmtInt, fun _ => ⟨51, -1, false⟩, fun _ => xmlsafeMap, 64⟩
      (defaultFlags (lit "rally.db"))
      ⟨true, none, .ok [lit "Spring Rally"], .error (lit "no such table: bonuses")⟩).1 =
      .completed := by decide
  have h := main_file_content (F := Int)
    ⟨fmtInt, fun _ => ⟨51, -1, false⟩, fun _ => xmlsafeMap, 64⟩ (defaultFlags (lit "rally.db"))
    ⟨true, none, .ok [lit "Spring Rally"], .error (lit "no such table: bonuses")⟩ hc
  exact ⟨hc, h.2.2.2.2.2 _ rfl, h.2.2.1⟩

end GetGpx
